import Mathlib

/-!
Verification of the Secret Santa generator (`generate_secret_santa.py`).

The Python source is shallowly embedded:

* `random.shuffle` is modelled by an oracle `shuffle : Nat → List α → List α`
  that, for each draw index, turns the current contents of the shuffled list
  into its next contents.  Faithfulness of the oracle to `random.shuffle` is
  the hypothesis `∀ n l, (shuffle n l).Perm l` used in the theorems below.
* `random.choice(characters)` is modelled by an oracle `choice : Nat → Nat`
  giving the index drawn at each step, with the hypothesis that the index is
  in range.
* Python dicts (insertion ordered) are modelled as association lists built by
  `dictInsert`, which implements `d[k] = v`: an existing key keeps its
  position and gets the new value, a new key is appended.
* Raising an exception is modelled by `Except.error`.
-/

set_option autoImplicit false
set_option maxRecDepth 40000
set_option maxHeartbeats 4000000

/-- The `PARTICIPANTS` list from the source: the fixed list of 18 participant names. -/
def PARTICIPANTS : List String :=
  ["Annie", "Jacques", "Vincent", "Nathalie", "Grégoire", "Aroldo",
   "Laurence", "Patrick", "Arthur", "Mathilde", "Quentin", "Clémence",
   "Axel", "Julien", "Aurélie", "Oscar", "Jeanne", "Léon"]

/-- The retry ceiling `max_attempts = 1000` from `generate_matches`. -/
def max_attempts : Nat := 1000

/-- The message of the exception raised by `generate_matches`:
`"Could not generate valid matching after {} attempts".format(max_attempts)`. -/
def exhaustedMsg : String :=
  "Could not generate valid matching after " ++ toString max_attempts ++ " attempts"

/-- The validity check of `generate_matches`: `valid` stays `True` iff
`giver != receivers[i]` for every index `i` of `givers`.  (In the source the
lists always have equal length, being copies of the same list up to
`random.shuffle`; the `zip` below agrees with the indexed loop then.) -/
def isValid {α : Type} [DecidableEq α] (givers receivers : List α) : Bool :=
  (givers.zip receivers).all fun q => decide (q.1 ≠ q.2)

/-- Python dict assignment `m[k] = v` on an insertion-ordered dict viewed as an
association list: an existing key keeps its position and gets value `v`, a
fresh key is appended at the end. -/
def dictInsert {α : Type} [DecidableEq α] (m : List (α × α)) (k v : α) : List (α × α) :=
  if k ∈ m.map Prod.fst then m.map (fun q => if q.1 = k then (k, v) else q)
  else m ++ [(k, v)]

/-- The dict built by `for i, giver in enumerate(givers): matches[giver] = receivers[i]`. -/
def mkMatches {α : Type} [DecidableEq α] (givers receivers : List α) : List (α × α) :=
  (givers.zip receivers).foldl (fun m q => dictInsert m q.1 q.2) []

/-- The retry loop of `generate_matches`: `for attempt in range(max_attempts)`.
`receivers` is threaded through because `random.shuffle` shuffles in place, so
each draw permutes the previous contents; `fuel` counts the remaining loop
iterations and `attempt` is the current draw index. -/
def genLoop {α : Type} [DecidableEq α] (shuffle : Nat → List α → List α) (givers : List α) :
    List α → Nat → Nat → Except String (List (α × α))
  | _receivers, _attempt, 0 => Except.error exhaustedMsg
  | receivers, attempt, fuel + 1 =>
    let receivers2 := shuffle attempt receivers
    if isValid givers receivers2 then Except.ok (mkMatches givers receivers2)
    else genLoop shuffle givers receivers2 (attempt + 1) fuel

/-- Function `generate_matches(participants)`: `receivers` and `givers` start as copies
of `participants`, then the bounded retry loop runs. -/
def generate_matches {α : Type} [DecidableEq α] (shuffle : Nat → List α → List α)
    (participants : List α) : Except String (List (α × α)) :=
  genLoop shuffle participants participants 0 max_attempts

/-- Number of `random.shuffle` draws performed by the retry loop of
`generate_matches` (mirrors `genLoop` step by step). -/
def genLoopCount {α : Type} [DecidableEq α] (shuffle : Nat → List α → List α) (givers : List α) :
    List α → Nat → Nat → Nat
  | _receivers, _attempt, 0 => 0
  | receivers, attempt, fuel + 1 =>
    let receivers2 := shuffle attempt receivers
    if isValid givers receivers2 then 1
    else 1 + genLoopCount shuffle givers receivers2 (attempt + 1) fuel

/-- Number of resampling attempts a run of `generate_matches` performs. -/
def attemptsUsed {α : Type} [DecidableEq α] (shuffle : Nat → List α → List α)
    (participants : List α) : Nat :=
  genLoopCount shuffle participants participants 0 max_attempts

/-- The local variables of `generate_matches` that hold lists: `participants`
is the argument, `receivers` and `givers` are the copies made at the top of the
function.  Used to state that the run mutates only `receivers`. -/
structure MatcherState (α : Type) where
  participants : List α
  receivers : List α
  givers : List α

/-- The retry loop again, this time threading all three list variables;
`random.shuffle(receivers)` rewrites only the `receivers` field. -/
def genLoopS {α : Type} [DecidableEq α] (shuffle : Nat → List α → List α) :
    MatcherState α → Nat → Nat → Except String (List (α × α)) × MatcherState α
  | s, _attempt, 0 => (Except.error exhaustedMsg, s)
  | s, attempt, fuel + 1 =>
    let s2 : MatcherState α := { s with receivers := shuffle attempt s.receivers }
    if isValid s2.givers s2.receivers then (Except.ok (mkMatches s2.givers s2.receivers), s2)
    else genLoopS shuffle s2 (attempt + 1) fuel

/-- The run of `generate_matches` together with the final values of its list variables:
`receivers = participants.copy()` and `givers = participants.copy()` are
modelled by initialising the three fields to the same list value; the copies
mean that shuffling rebinds only the `receivers` field. -/
def generate_matches_run {α : Type} [DecidableEq α] (shuffle : Nat → List α → List α)
    (participants : List α) : Except String (List (α × α)) × MatcherState α :=
  genLoopS shuffle
    { participants := participants, receivers := participants, givers := participants }
    0 max_attempts

/-! Part: Filenames (`generate_random_string`, `generate_filename`) -/

/-- Canonical decomposition (NFD) of one character, as performed by
`unicodedata.normalize` with form NFD, for the characters relevant to this
repository: precomposed Latin letters split into their base letter followed by
a combining mark; characters with no canonical decomposition (all ASCII among
them) map to themselves. -/
def charNFD (c : Char) : List Char :=
  if c = 'é' then ['e', '\u0301']
  else if c = 'è' then ['e', '\u0300']
  else if c = 'ê' then ['e', '\u0302']
  else if c = 'ë' then ['e', '\u0308']
  else if c = 'à' then ['a', '\u0300']
  else if c = 'â' then ['a', '\u0302']
  else if c = 'ç' then ['c', '\u0327']
  else if c = 'î' then ['i', '\u0302']
  else if c = 'ï' then ['i', '\u0308']
  else if c = 'ô' then ['o', '\u0302']
  else if c = 'ö' then ['o', '\u0308']
  else if c = 'ù' then ['u', '\u0300']
  else if c = 'û' then ['u', '\u0302']
  else if c = 'ü' then ['u', '\u0308']
  else if c = 'É' then ['E', '\u0301']
  else [c]

/-- The check that `unicodedata.category` yields Mn, for the combining marks produced by
`charNFD`: the Combining Diacritical Marks block U+0300 – U+036F. -/
def isMn (c : Char) : Bool :=
  decide (0x300 ≤ c.val ∧ c.val ≤ 0x36F)

/-- Function `generate_filename(name)`: NFD-normalize, drop combining marks, lowercase
(`str.lower`, modelled by `Char.toLower`, which agrees on the characters
produced here), and replace spaces by hyphens. -/
def generate_filename (name : String) : String :=
  let nfd := name.data.flatMap charNFD
  let without_accents := nfd.filter fun c => !isMn c
  String.mk ((without_accents.map Char.toLower).map fun c => if c = ' ' then '-' else c)

/-- The constant `characters = string.ascii_lowercase + string.digits`. -/
def characters : String := "abcdefghijklmnopqrstuvwxyz0123456789"

/-- Function `generate_random_string(length)`: one `random.choice(characters)` per
position; `choice i` is the index into `characters` drawn at step `i`. -/
def generate_random_string (choice : Nat → Nat) (length : Nat := 8) : String :=
  String.mk ((List.range length).map fun i => characters.data.getD (choice i) 'a')

/-- The filename built in `main`: `f"{filename_base}-{random_string}.html"`. -/
def make_filename (name token : String) : String :=
  generate_filename name ++ "-" ++ token ++ ".html"

/-! Part: Substring scanning

The privacy property of the spec speaks of scanning a document for a name;
`listPrefix` and `listSub` are the corresponding notions on character lists:
`listSub p l` holds iff `p` occurs contiguously inside `l`. -/

/-- Predicate `listPrefix p l`: true iff `p` is a prefix of `l`. -/
def listPrefix : List Char → List Char → Bool
  | [], _ => true
  | _ :: _, [] => false
  | a :: as, b :: bs => a == b && listPrefix as bs

/-- Predicate `listSub p l`: true iff `p` occurs contiguously inside `l`. -/
def listSub (p : List Char) : List Char → Bool
  | [] => listPrefix p []
  | a :: t => listPrefix p (a :: t) || listSub p t

/-- Predicate `occursIn needle hay`: true iff the string `needle` occurs inside `hay`. -/
def occursIn (needle hay : String) : Bool :=
  listSub needle.data hay.data


/-! Part: The individual-page template (`create_individual_page`)

The Python function interpolates `giver` and `receiver` into one large
f-string (doubled braces of the f-string denote literal braces and are decoded
here).  The template is embedded line by line, in source order, and
`joinLines` reinserts the newline between consecutive lines of the
triple-quoted literal. -/

/-- Join lines with the newline characters of the original literal. -/
def joinLines : List String → String
  | [] => ""
  | [l] => l
  | l :: l2 :: ls => l ++ "\n" ++ joinLines (l2 :: ls)

/-- Template lines before the line containing the giver. -/
def linesA : List String := [
  "<!DOCTYPE html>",
  "<html lang=\"fr\">",
  "<head>",
  "    <meta charset=\"UTF-8\">",
  "    <meta name=\"viewport\" content=\"width=device-width, initial-scale=1.0\">",
  "    <title>Secret Santa - La Famillia</title>",
  "    <style>",
  "        * \x7b",
  "            margin: 0;",
  "            padding: 0;",
  "            box-sizing: border-box;",
  "        \x7d",
  "",
  "        body \x7b",
  "            font-family: \x27Georgia\x27, serif;",
  "            background: linear-gradient(135deg, #1a472a 0%, #2d5a3d 50%, #1a472a 100%);",
  "            min-height: 100vh;",
  "            display: flex;",
  "            justify-content: center;",
  "            align-items: center;",
  "            padding: 20px;",
  "            position: relative;",
  "            overflow-x: hidden;",
  "        \x7d",
  "",
  "        /* Snowflakes animation */",
  "        .snowflake \x7b",
  "            position: absolute;",
  "            top: -10px;",
  "            color: white;",
  "            font-size: 1em;",
  "            font-family: Arial, sans-serif;",
  "            text-shadow: 0 0 5px #fff;",
  "            animation: fall linear infinite;",
  "        \x7d",
  "",
  "        @keyframes fall \x7b",
  "            to \x7b",
  "                transform: translateY(100vh);",
  "            \x7d",
  "        \x7d",
  "",
  "        .container \x7b",
  "            background: white;",
  "            border-radius: 20px;",
  "            padding: 40px;",
  "            max-width: 600px;",
  "            width: 100%;",
  "            box-shadow: 0 20px 60px rgba(0, 0, 0, 0.3);",
  "            text-align: center;",
  "            position: relative;",
  "            z-index: 1;",
  "        \x7d",
  "",
  "        .header \x7b",
  "            margin-bottom: 30px;",
  "        \x7d",
  "",
  "        h1 \x7b",
  "            color: #c41e3a;",
  "            font-size: 2.5em;",
  "            margin-bottom: 10px;",
  "            text-shadow: 2px 2px 4px rgba(0, 0, 0, 0.1);",
  "        \x7d",
  "",
  "        .greeting \x7b",
  "            font-size: 1.3em;",
  "            color: #2d5a3d;",
  "            margin-bottom: 30px;",
  "        \x7d",
  "",
  "        .reveal-section \x7b",
  "            margin: 40px 0;",
  "        \x7d",
  "",
  "        .reveal-button \x7b",
  "            background: linear-gradient(135deg, #c41e3a 0%, #a01729 100%);",
  "            color: white;",
  "            border: none;",
  "            padding: 20px 40px;",
  "            font-size: 1.3em;",
  "            border-radius: 50px;",
  "            cursor: pointer;",
  "            transition: all 0.3s ease;",
  "            box-shadow: 0 4px 15px rgba(196, 30, 58, 0.4);",
  "            font-weight: bold;",
  "        \x7d",
  "",
  "        .reveal-button:hover \x7b",
  "            transform: translateY(-2px);",
  "            box-shadow: 0 6px 20px rgba(196, 30, 58, 0.6);",
  "        \x7d",
  "",
  "        .reveal-button:active \x7b",
  "            transform: translateY(0);",
  "        \x7d",
  "",
  "        .revealed \x7b",
  "            display: none;",
  "            margin-top: 30px;",
  "            padding: 30px;",
  "            background: linear-gradient(135deg, #fff9e6 0%, #ffe6cc 100%);",
  "            border-radius: 15px;",
  "            border: 3px solid #c41e3a;",
  "        \x7d",
  "",
  "        .revealed.show \x7b",
  "            display: block;",
  "            animation: fadeIn 0.5s ease;",
  "        \x7d",
  "",
  "        @keyframes fadeIn \x7b",
  "            from \x7b",
  "                opacity: 0;",
  "                transform: scale(0.9);",
  "            \x7d",
  "            to \x7b",
  "                opacity: 1;",
  "                transform: scale(1);",
  "            \x7d",
  "        \x7d",
  "",
  "        .receiver-name \x7b",
  "            font-size: 2em;",
  "            color: #c41e3a;",
  "            font-weight: bold;",
  "            margin: 20px 0;",
  "        \x7d",
  "",
  "        .info-section \x7b",
  "            margin-top: 40px;",
  "            padding: 25px;",
  "            background: #f8f9fa;",
  "            border-radius: 10px;",
  "            text-align: left;",
  "        \x7d",
  "",
  "        .info-section h2 \x7b",
  "            color: #2d5a3d;",
  "            margin-bottom: 15px;",
  "            font-size: 1.5em;",
  "        \x7d",
  "",
  "        .info-item \x7b",
  "            margin: 10px 0;",
  "            padding: 10px;",
  "            background: white;",
  "            border-radius: 5px;",
  "            border-left: 4px solid #c41e3a;",
  "        \x7d",
  "",
  "        .info-item strong \x7b",
  "            color: #2d5a3d;",
  "        \x7d",
  "",
  "        .rules \x7b",
  "            margin-top: 20px;",
  "        \x7d",
  "",
  "        .rules ul \x7b",
  "            list-style: none;",
  "            padding-left: 0;",
  "        \x7d",
  "",
  "        .rules li \x7b",
  "            padding: 10px;",
  "            margin: 8px 0;",
  "            background: white;",
  "            border-radius: 5px;",
  "            border-left: 4px solid #2d5a3d;",
  "        \x7d",
  "",
  "        .rules li::before \x7b",
  "            content: \"🎁 \";",
  "            margin-right: 10px;",
  "        \x7d",
  "",
  "        .decoration \x7b",
  "            font-size: 3em;",
  "            margin: 10px 0;",
  "        \x7d",
  "    </style>",
  "</head>",
  "<body>",
  "    <!\x2d\x2d Snowflakes \x2d\x2d>",
  "    <script>",
  "        // Generate snowflakes",
  "        for (let i = 0; i < 20; i++) \x7b",
  "            let snowflake = document.createElement(\x27div\x27);",
  "            snowflake.className = \x27snowflake\x27;",
  "            snowflake.innerHTML = \x27❄\x27;",
  "            snowflake.style.left = Math.random() * 100 + \x27%\x27;",
  "            snowflake.style.animationDuration = (Math.random() * 3 + 2) + \x27s\x27;",
  "            snowflake.style.animationDelay = Math.random() * 5 + \x27s\x27;",
  "            snowflake.style.opacity = Math.random();",
  "            snowflake.style.fontSize = (Math.random() * 10 + 10) + \x27px\x27;",
  "            document.body.appendChild(snowflake);",
  "        \x7d",
  "    </script>",
  "",
  "    <div class=\"container\">",
  "        <div class=\"header\">",
  "            <div class=\"decoration\">🎄 ⭐ 🎄</div>",
  "            <h1>Secret Santa</h1>",
  "            <h2 style=\"color: #2d5a3d; margin-top: 10px;\">La Famillia 2025</h2>",
  "        </div>",
  ""]

/-- The template line containing the giver interpolation. -/
def giverLine (giver : String) : String :=
  "        <p class=\"greeting\">Bonjour <strong>" ++ giver ++ "</strong> !</p>"

/-- Template lines between the giver line and the receiver line. -/
def linesB : List String := [
  "",
  "        <div class=\"reveal-section\">",
  "            <button class=\"reveal-button\" onclick=\"revealSecretSanta()\">",
  "                🎁 Découvre ton Secret Santa 🎁",
  "            </button>",
  "",
  "            <div class=\"revealed\" id=\"revealed\">",
  "                <div class=\"decoration\">🎅 🎁 🎅</div>",
  "                <p style=\"font-size: 1.2em; color: #2d5a3d;\">Tu dois offrir un cadeau à :</p>"]

/-- The template line containing the receiver interpolation. -/
def receiverLine (receiver : String) : String :=
  "                <div class=\"receiver-name\">" ++ receiver ++ "</div>"

/-- Template lines after the receiver line. -/
def linesC : List String := [
  "                <div class=\"decoration\">✨ 🌟 ✨</div>",
  "            </div>",
  "        </div>",
  "",
  "        <div class=\"info-section\">",
  "            <h2>📅 Informations</h2>",
  "            <div class=\"info-item\">",
  "                <strong>Date :</strong> 25 décembre 2025 (soir)",
  "            </div>",
  "            <div class=\"info-item\">",
  "                <strong>Lieu :</strong> Les Quinaux",
  "            </div>",
  "",
  "            <div class=\"rules\">",
  "                <h2 style=\"margin-top: 25px;\">📜 Règles</h2>",
  "                <ul>",
  "                    <li>Cadeau à moins de 50€</li>",
  "                    <li>Le jour même : pense à bien avoir écrit le nom sur le papier cadeau</li>",
  "                    <li>Si tu as une idée de cadeau, n\x27hésite pas à en faire part à tes proches qui pourraient être contactés pour savoir ce qui te ferait plaisir</li>",
  "                </ul>",
  "            </div>",
  "        </div>",
  "",
  "        <div style=\"margin-top: 30px; color: #888; font-size: 0.9em;\">",
  "            <p>🎄 Joyeux Noël et bon Secret Santa ! 🎄</p>",
  "        </div>",
  "    </div>",
  "",
  "    <script>",
  "        function revealSecretSanta() \x7b",
  "            const revealed = document.getElementById(\x27revealed\x27);",
  "            revealed.classList.add(\x27show\x27);",
  "",
  "            // Optionally hide the button after reveal",
  "            const button = document.querySelector(\x27.reveal-button\x27);",
  "            button.style.display = \x27none\x27;",
  "        \x7d",
  "    </script>",
  "    <div style=\"position: fixed; bottom: 5px; right: 10px; font-size: 10px; color: #999; opacity: 0.5;\">v1.0.1</div>",
  "</body>",
  "</html>"]

/-- All lines of the individual page, in order. -/
def indivLines (giver receiver : String) : List String :=
  linesA ++ giverLine giver :: (linesB ++ receiverLine receiver :: linesC)

set_option linter.unusedVariables false in
/-- Function `create_individual_page(giver, receiver, random_string)`: the rendered
HTML document.  As in the source, the `random_string` argument is not used in
the document body. -/
def create_individual_page (giver receiver random_string : String) : String :=
  joinLines (indivLines giver receiver)

/-! Part: Association-list facts about `dictInsert` / `mkMatches` -/

theorem dictInsert_pairs {α : Type} [DecidableEq α] {P : α × α → Prop}
    {m : List (α × α)} {k v : α} (hm : ∀ q ∈ m, P q) (hkv : P (k, v)) :
    ∀ q ∈ dictInsert m k v, P q := by
  intro q hq
  unfold dictInsert at hq
  by_cases hk : k ∈ m.map Prod.fst
  · rw [if_pos hk] at hq
    obtain ⟨q0, hq0, rfl⟩ := List.mem_map.mp hq
    by_cases h0 : q0.1 = k
    · simpa [h0] using hkv
    · simpa [h0] using hm q0 hq0
  · rw [if_neg hk] at hq
    rcases List.mem_append.mp hq with h | h
    · exact hm q h
    · simpa using List.mem_singleton.mp h ▸ hkv

theorem dictInsert_keys {α : Type} [DecidableEq α] {m : List (α × α)} {k v k' : α}
    (h : k' ∈ m.map Prod.fst ∨ k' = k) :
    k' ∈ (dictInsert m k v).map Prod.fst := by
  unfold dictInsert
  by_cases hk : k ∈ m.map Prod.fst
  · rw [if_pos hk]
    have hkeys : (m.map (fun q => if q.1 = k then (k, v) else q)).map Prod.fst = m.map Prod.fst := by
      rw [List.map_map]
      apply List.map_congr_left
      intro q _
      by_cases h0 : q.1 = k <;> simp [h0]
    rw [hkeys]
    rcases h with h | rfl
    · exact h
    · exact hk
  · rw [if_neg hk]
    rcases h with h | rfl
    · simp [h]
    · simp

theorem foldl_dictInsert_pairs {α : Type} [DecidableEq α] {P : α × α → Prop} :
    ∀ (l acc : List (α × α)), (∀ q ∈ acc, P q) → (∀ q ∈ l, P q) →
      ∀ q ∈ l.foldl (fun m q => dictInsert m q.1 q.2) acc, P q := by
  intro l
  induction l with
  | nil => intro acc hacc _ q hq; exact hacc q hq
  | cons a t ih =>
    intro acc hacc hl q hq
    refine ih (dictInsert acc a.1 a.2) ?_ (fun q hq => hl q (List.mem_cons_of_mem a hq)) q hq
    exact dictInsert_pairs hacc (by simpa using hl a (List.mem_cons_self a t))

theorem foldl_dictInsert_keys {α : Type} [DecidableEq α] :
    ∀ (l acc : List (α × α)) (k : α), (k ∈ acc.map Prod.fst ∨ k ∈ l.map Prod.fst) →
      k ∈ (l.foldl (fun m q => dictInsert m q.1 q.2) acc).map Prod.fst := by
  intro l
  induction l with
  | nil => intro acc k h; simpa using h.resolve_right (by simp)
  | cons a t ih =>
    intro acc k h
    apply ih (dictInsert acc a.1 a.2) k
    rcases h with h | h
    · exact Or.inl (dictInsert_keys (Or.inl h))
    · rcases List.mem_map.mp h with ⟨q, hq, rfl⟩
      rcases List.mem_cons.mp hq with rfl | hq
      · exact Or.inl (dictInsert_keys (Or.inr rfl))
      · exact Or.inr (List.mem_map_of_mem Prod.fst hq)

theorem lookup_exists_of_mem_keys {α : Type} [DecidableEq α] :
    ∀ (m : List (α × α)) (k : α), k ∈ m.map Prod.fst → ∃ v, m.lookup k = some v := by
  intro m
  induction m with
  | nil => simp
  | cons a t ih =>
    intro k hk
    by_cases h : k = a.1
    · exact ⟨a.2, by simp [List.lookup, h]⟩
    · have : k ∈ t.map Prod.fst := by
        rcases List.mem_map.mp hk with ⟨q, hq, rfl⟩
        rcases List.mem_cons.mp hq with rfl | hq
        · exact absurd rfl h
        · exact List.mem_map_of_mem Prod.fst hq
      obtain ⟨v, hv⟩ := ih k this
      exact ⟨v, by simp [List.lookup, beq_false_of_ne h, hv]⟩

theorem mem_of_lookup_eq_some {α : Type} [DecidableEq α] :
    ∀ (m : List (α × α)) (k v : α), m.lookup k = some v → (k, v) ∈ m := by
  intro m
  induction m with
  | nil => simp [List.lookup]
  | cons a t ih =>
    intro k v h
    by_cases hk : k = a.1
    · simp only [List.lookup, hk, beq_self_eq_true, if_true] at h
      obtain rfl := Option.some.inj h
      simp [hk, ← Prod.ext_iff]
    · simp only [List.lookup, beq_false_of_ne hk] at h
      exact List.mem_cons_of_mem a (ih k v h)

theorem isValid_pairs {α : Type} [DecidableEq α] {givers receivers : List α}
    (h : isValid givers receivers = true) :
    ∀ q ∈ givers.zip receivers, q.1 ≠ q.2 := by
  intro q hq
  have := List.all_eq_true.mp h q hq
  exact of_decide_eq_true this

/-! Part: The retry-loop invariant -/

theorem genLoop_ok_inv {α : Type} [DecidableEq α] (shuffle : Nat → List α → List α)
    (givers : List α) (hshuf : ∀ n l, (shuffle n l).Perm l) :
    ∀ fuel attempt receivers m, genLoop shuffle givers receivers attempt fuel = Except.ok m →
      ∃ r, r.Perm receivers ∧ isValid givers r = true ∧ m = mkMatches givers r := by
  intro fuel
  induction fuel with
  | zero => intro attempt receivers m h; simp [genLoop] at h
  | succ n ih =>
    intro attempt receivers m h
    simp only [genLoop] at h
    by_cases hv : isValid givers (shuffle attempt receivers) = true
    · rw [if_pos hv] at h
      exact ⟨shuffle attempt receivers, hshuf attempt receivers, hv, (Except.ok.inj h).symm⟩
    · rw [if_neg hv] at h
      obtain ⟨r, hr, hv2, hm⟩ := ih (attempt + 1) (shuffle attempt receivers) m h
      exact ⟨r, hr.trans (hshuf attempt receivers), hv2, hm⟩

/-- C1: every mapping returned by `generate_matches` is self-assignment free:
each participant `p` of the input list is assigned a receiver, and that
receiver differs from `p`. -/
theorem generate_matches_derangement {α : Type} [DecidableEq α]
    (shuffle : Nat → List α → List α) (participants : List α) (m : List (α × α)) (p : α)
    (hshuf : ∀ n l, (shuffle n l).Perm l)
    (h : generate_matches shuffle participants = Except.ok m)
    (hp : p ∈ participants) :
    ∃ v, m.lookup p = some v ∧ v ≠ p := by
  obtain ⟨r, hr, hv, hm⟩ :=
    genLoop_ok_inv shuffle participants hshuf max_attempts 0 participants m h
  have hlen : participants.length ≤ r.length := le_of_eq (hr.length_eq.trans rfl).symm
  have hzip : (participants.zip r).map Prod.fst = participants := List.map_fst_zip _ _ hlen
  have hkeys : p ∈ m.map Prod.fst := by
    rw [hm]
    exact foldl_dictInsert_keys _ [] p (Or.inr (by rw [hzip]; exact hp))
  obtain ⟨v, hv2⟩ := lookup_exists_of_mem_keys m p hkeys
  refine ⟨v, hv2, ?_⟩
  have hmem : (p, v) ∈ m := mem_of_lookup_eq_some m p v hv2
  have hne : ∀ q ∈ m, q.1 ≠ q.2 := by
    rw [hm]
    exact foldl_dictInsert_pairs _ [] (by simp) (isValid_pairs hv)
  exact fun hvp => hne (p, v) hmem (by simp [hvp])

/-- Witness for C1: a run with a reversing shuffle on `["A", "B"]` succeeds and
assigns `"A"` a receiver different from `"A"`. -/
theorem generate_matches_derangement_witness :
    ∃ v, List.lookup "A" [("A", "B"), ("B", "A")] = some v ∧ v ≠ "A" :=
  generate_matches_derangement (fun _ l => l.reverse) ["A", "B"] [("A", "B"), ("B", "A")] "A"
    (fun _ l => List.reverse_perm l) rfl (by decide)

/-! Part: `mkMatches` on duplicate-free givers -/

theorem foldl_dictInsert_of_nodup {α : Type} [DecidableEq α] :
    ∀ (l acc : List (α × α)), (l.map Prod.fst).Nodup →
      (∀ k ∈ l.map Prod.fst, k ∉ acc.map Prod.fst) →
      l.foldl (fun m q => dictInsert m q.1 q.2) acc = acc ++ l := by
  intro l
  induction l with
  | nil => intro acc _ _; simp
  | cons a t ih =>
    intro acc hnd hdisj
    have ha : a.1 ∉ acc.map Prod.fst := hdisj a.1 (by simp)
    have h1 : dictInsert acc a.1 a.2 = acc ++ [a] := by
      unfold dictInsert
      rw [if_neg ha]
    have hnd' := hnd
    rw [List.map_cons, List.nodup_cons] at hnd'
    have hnd2 : (t.map Prod.fst).Nodup := hnd'.2
    have hhead : a.1 ∉ t.map Prod.fst := hnd'.1
    have hdisj2 : ∀ k ∈ t.map Prod.fst, k ∉ (acc ++ [a]).map Prod.fst := by
      intro k hk
      simp only [List.map_append, List.mem_append]
      rintro (h | h)
      · exact hdisj k (by simp [hk]) h
      · simp only [List.map_cons, List.map_nil, List.mem_singleton] at h
        exact hhead (h ▸ hk)
    rw [List.foldl_cons, h1, ih (acc ++ [a]) hnd2 hdisj2, List.append_assoc,
      List.singleton_append]

theorem mkMatches_eq_zip {α : Type} [DecidableEq α] (givers receivers : List α)
    (hnd : givers.Nodup) (hlen : givers.length ≤ receivers.length) :
    mkMatches givers receivers = givers.zip receivers := by
  unfold mkMatches
  rw [foldl_dictInsert_of_nodup _ []
    (by rw [List.map_fst_zip _ _ hlen]; exact hnd) (by simp)]
  simp

/-- C2: on a duplicate-free participant list, every mapping returned by
`generate_matches` is a permutation of the participant set: the givers are
exactly the participants in order, and the receivers are a rearrangement of the
participants (each occurring exactly once). -/
theorem generate_matches_bijection {α : Type} [DecidableEq α]
    (shuffle : Nat → List α → List α) (participants : List α) (m : List (α × α))
    (hshuf : ∀ n l, (shuffle n l).Perm l) (hnd : participants.Nodup)
    (h : generate_matches shuffle participants = Except.ok m) :
    m.map Prod.fst = participants ∧ (m.map Prod.snd).Perm participants := by
  obtain ⟨r, hr, _hv, hm⟩ :=
    genLoop_ok_inv shuffle participants hshuf max_attempts 0 participants m h
  have hlen : participants.length ≤ r.length := le_of_eq hr.length_eq.symm
  have hlen2 : r.length ≤ participants.length := le_of_eq hr.length_eq
  rw [hm, mkMatches_eq_zip participants r hnd hlen]
  refine ⟨List.map_fst_zip _ _ hlen, ?_⟩
  rw [List.map_snd_zip _ _ hlen2]
  exact hr

/-- Witness for C2: the same concrete run, checked to be a permutation. -/
theorem generate_matches_bijection_witness :
    ([("A", "B"), ("B", "A")].map Prod.fst = ["A", "B"]) ∧
    ([("A", "B"), ("B", "A")].map Prod.snd).Perm ["A", "B"] :=
  generate_matches_bijection (fun _ l => l.reverse) ["A", "B"] [("A", "B"), ("B", "A")]
    (fun _ l => List.reverse_perm l) (by decide) rfl

/-! Part: Permutations of a two-element list -/

theorem perm_pair_cases {α : Type} {x : List α} {a b : α} (h : x.Perm [a, b]) :
    x = [a, b] ∨ x = [b, a] := by
  rcases x with _ | ⟨u, _ | ⟨v, _ | ⟨w, t⟩⟩⟩
  · simpa using h.length_eq
  · simpa using h.length_eq
  · have hu : u ∈ [a, b] := h.mem_iff.mp (List.mem_cons_self u [v])
    rcases List.mem_cons.mp hu with rfl | hu2
    · left
      have hv : [v].Perm [b] := h.cons_inv
      rw [List.perm_singleton.mp hv]
    · have hu3 : u = b := by simpa using hu2
      right
      rw [hu3] at h ⊢
      have hv : [v].Perm [a] := (h.trans (List.Perm.swap b a [])).cons_inv
      rw [List.perm_singleton.mp hv]
  · simpa using h.length_eq

/-- C7: on the two-element input `["A", "B"]` every successful run returns the
swap, regardless of the random source. -/
theorem generate_matches_two_participants (shuffle : Nat → List String → List String)
    (m : List (String × String))
    (hshuf : ∀ n l, (shuffle n l).Perm l)
    (h : generate_matches shuffle ["A", "B"] = Except.ok m) :
    m = [("A", "B"), ("B", "A")] := by
  obtain ⟨r, hr, hv, hm⟩ :=
    genLoop_ok_inv shuffle ["A", "B"] hshuf max_attempts 0 ["A", "B"] m h
  rcases perm_pair_cases hr with rfl | rfl
  · exact absurd hv (by decide)
  · rw [hm]; rfl

/-- Witness for C7: the reversing shuffle produces exactly the swap. -/
theorem generate_matches_two_participants_witness :
    ([("A", "B"), ("B", "A")] : List (String × String)) = [("A", "B"), ("B", "A")] :=
  generate_matches_two_participants (fun _ l => l.reverse) [("A", "B"), ("B", "A")]
    (fun _ l => List.reverse_perm l) rfl

/-! Part: Exhaustion -/

theorem genLoop_exhausts {α : Type} [DecidableEq α] (shuffle : Nat → List α → List α)
    (participants : List α)
    (hshuf : ∀ n l, (shuffle n l).Perm l)
    (hbad : ∀ n r, r.Perm participants → isValid participants (shuffle n r) = false) :
    ∀ fuel attempt r, r.Perm participants →
      genLoop shuffle participants r attempt fuel = Except.error exhaustedMsg ∧
      genLoopCount shuffle participants r attempt fuel = fuel := by
  intro fuel
  induction fuel with
  | zero => intro attempt r _; exact ⟨rfl, rfl⟩
  | succ n ih =>
    intro attempt r hr
    have hv := hbad attempt r hr
    have hr2 : (shuffle attempt r).Perm participants := (hshuf attempt r).trans hr
    obtain ⟨h1, h2⟩ := ih (attempt + 1) (shuffle attempt r) hr2
    constructor
    · simp only [genLoop]
      rw [if_neg (by simp [hv])]
      exact h1
    · simp only [genLoopCount]
      rw [if_neg (by simp [hv])]
      omega

/-- C3: when every candidate the random source can produce keeps a fixed point
(e.g. an identity source, or a single participant), `generate_matches` raises
the generation-exhausted error, uses exactly the 1000-attempt ceiling, and no
fuel bound whatsoever would let the loop return a mapping. -/
theorem generate_matches_exhaustion {α : Type} [DecidableEq α]
    (shuffle : Nat → List α → List α) (participants : List α)
    (hshuf : ∀ n l, (shuffle n l).Perm l)
    (hbad : ∀ n r, r.Perm participants → isValid participants (shuffle n r) = false) :
    generate_matches shuffle participants = Except.error exhaustedMsg ∧
    attemptsUsed shuffle participants = max_attempts ∧
    ∀ fuel attempt r m, r.Perm participants →
      genLoop shuffle participants r attempt fuel ≠ Except.ok m := by
  refine ⟨(genLoop_exhausts shuffle participants hshuf hbad max_attempts 0 participants
      (List.Perm.refl _)).1,
    (genLoop_exhausts shuffle participants hshuf hbad max_attempts 0 participants
      (List.Perm.refl _)).2, ?_⟩
  intro fuel attempt r m hr hok
  have herr := (genLoop_exhausts shuffle participants hshuf hbad fuel attempt r hr).1
  rw [herr] at hok
  exact Except.noConfusion hok

/-- Witness for C3: the identity source on one participant exhausts all 1000
attempts and raises. -/
theorem generate_matches_exhaustion_witness :
    generate_matches (fun _ l => l) ([0] : List Nat) = Except.error exhaustedMsg ∧
    attemptsUsed (fun _ l => l) ([0] : List Nat) = max_attempts := by
  have h := generate_matches_exhaustion (fun _ l => l) ([0] : List Nat)
    (fun _ l => List.Perm.refl l)
    (fun n r hr => by rw [List.perm_singleton.mp hr]; rfl)
  exact ⟨h.1, h.2.1⟩

/-! Part: Determinism -/

theorem genLoop_congr {α : Type} [DecidableEq α] (s1 s2 : Nat → List α → List α)
    (givers : List α) (h : ∀ n r, s1 n r = s2 n r) :
    ∀ fuel attempt receivers,
      genLoop s1 givers receivers attempt fuel = genLoop s2 givers receivers attempt fuel := by
  intro fuel
  induction fuel with
  | zero => intro _ _; rfl
  | succ n ih =>
    intro attempt receivers
    simp only [genLoop, h attempt receivers]
    by_cases hv : isValid givers (s2 attempt receivers) = true
    · rw [if_pos hv, if_pos hv]
    · rw [if_neg (by simp [hv]), if_neg (by simp [hv])]
      exact ih (attempt + 1) (s2 attempt receivers)

/-- C8: `generate_matches` is a deterministic function of its participant list
and its random source: sources that draw identically yield identical results. -/
theorem generate_matches_deterministic {α : Type} [DecidableEq α]
    (s1 s2 : Nat → List α → List α) (participants : List α)
    (h : ∀ n r, s1 n r = s2 n r) :
    generate_matches s1 participants = generate_matches s2 participants :=
  genLoop_congr s1 s2 participants h max_attempts 0 participants

/-- Witness for C8: two invocations with the same fixed source agree. -/
theorem generate_matches_deterministic_witness :
    generate_matches (fun _ l => l.reverse) ([0, 1] : List Nat) =
      generate_matches (fun _ l => l.reverse) ([0, 1] : List Nat) :=
  generate_matches_deterministic _ _ [0, 1] (fun _ _ => rfl)

/-! Part: The input list is not mutated -/

theorem genLoopS_preserves {α : Type} [DecidableEq α] (shuffle : Nat → List α → List α) :
    ∀ fuel s attempt,
      (genLoopS shuffle s attempt fuel).2.participants = s.participants ∧
      (genLoopS shuffle s attempt fuel).2.givers = s.givers := by
  intro fuel
  induction fuel with
  | zero => intro s attempt; exact ⟨rfl, rfl⟩
  | succ n ih =>
    intro s attempt
    simp only [genLoopS]
    by_cases hv :
        isValid s.givers (shuffle attempt s.receivers) = true
    · rw [if_pos hv]
      exact ⟨rfl, rfl⟩
    · rw [if_neg (by simp [hv])]
      exact ih { s with receivers := shuffle attempt s.receivers } (attempt + 1)

theorem genLoopS_fst {α : Type} [DecidableEq α] (shuffle : Nat → List α → List α) :
    ∀ fuel s attempt,
      (genLoopS shuffle s attempt fuel).1 = genLoop shuffle s.givers s.receivers attempt fuel := by
  intro fuel
  induction fuel with
  | zero => intro s attempt; rfl
  | succ n ih =>
    intro s attempt
    simp only [genLoopS, genLoop]
    by_cases hv : isValid s.givers (shuffle attempt s.receivers) = true
    · rw [if_pos hv, if_pos hv]
    · rw [if_neg (by simp [hv]), if_neg (by simp [hv])]
      exact ih { s with receivers := shuffle attempt s.receivers } (attempt + 1)

/-- C9: a run of `generate_matches` leaves the input `participants` list (and
the `givers` copy) unchanged — only the internal `receivers` copy is shuffled —
and the result of the run is exactly that of `generate_matches`. -/
theorem generate_matches_preserves_input {α : Type} [DecidableEq α]
    (shuffle : Nat → List α → List α) (participants : List α) :
    (generate_matches_run shuffle participants).2.participants = participants ∧
    (generate_matches_run shuffle participants).2.givers = participants ∧
    (generate_matches_run shuffle participants).1 = generate_matches shuffle participants :=
  ⟨(genLoopS_preserves shuffle max_attempts _ 0).1,
   (genLoopS_preserves shuffle max_attempts _ 0).2,
   genLoopS_fst shuffle max_attempts _ 0⟩

/-! Part: Input validation (C4) -/

/-- C4 counterexample: on the empty input list — fewer than two participants —
`generate_matches` does not reject; the first candidate is vacuously valid and
the empty mapping is returned. -/
theorem generate_matches_accepts_empty :
    generate_matches (fun _ l => l) ([] : List Nat) = Except.ok [] := rfl

/-- C4 (amended): `generate_matches` performs no input validation.  On the
empty list it returns the empty mapping; on a one-element list it exhausts the
1000-attempt ceiling and raises the generation-exhausted error; a list with
duplicate identifiers can likewise reach generation and return a (merged-key)
mapping. -/
theorem generate_matches_no_validation :
    (∀ shuffle : Nat → List Nat → List Nat,
      generate_matches shuffle [] = Except.ok []) ∧
    (∀ shuffle : Nat → List Nat → List Nat, (∀ n l, (shuffle n l).Perm l) →
      ∀ a : Nat, generate_matches shuffle [a] = Except.error exhaustedMsg) ∧
    generate_matches (fun _ l => l.reverse) ["A", "A", "B", "B"] =
      Except.ok [("A", "B"), ("B", "A")] := by
  refine ⟨fun shuffle => rfl, ?_, rfl⟩
  intro shuffle hshuf a
  refine (genLoop_exhausts shuffle [a] hshuf ?_ max_attempts 0 [a] (List.Perm.refl _)).1
  intro n r hr
  have h1 : (shuffle n r).Perm [a] := (hshuf n r).trans hr
  rw [List.perm_singleton.mp h1]
  simp [isValid]

/-- Witness for the amended statement of C4 at concrete inputs. -/
theorem generate_matches_no_validation_witness :
    generate_matches (fun _ l => l) ([] : List Nat) = Except.ok [] ∧
    generate_matches (fun _ l => l) ([5] : List Nat) = Except.error exhaustedMsg :=
  ⟨generate_matches_no_validation.1 (fun _ l => l),
   generate_matches_no_validation.2.1 (fun _ l => l) (fun _ l => List.Perm.refl l) 5⟩

/-! Part: Filename derivation (C6, C10) -/

/-- C6 counterexample: `generate_filename` only replaces the space character,
so a name containing a tab keeps that whitespace character in the output. -/
theorem generate_filename_whitespace_residue :
    '\t' ∈ (generate_filename "a\tb").data ∧ Char.isWhitespace '\t' = true := by decide

theorem characters_getD :
    ∀ i < 36, ((characters.data.getD i 'a').isLower || (characters.data.getD i 'a').isDigit) = true := by
  decide

/-- C6 (amended): `generate_filename` maps `"Grégoire"` to `"gregoire"` and
`"Jean Paul"` to `"jean-paul"`; for each of the fixed participant names the
output is pure ASCII with no whitespace (for arbitrary input names the code
only strips the diacritics it decomposes and only replaces spaces, so residue
is possible); and each per-participant filename is
`<normalized-name>-<token>.html` with a token of exactly 8 characters drawn
from lowercase letters and digits. -/
theorem generate_filename_spec :
    generate_filename "Grégoire" = "gregoire" ∧
    generate_filename "Jean Paul" = "jean-paul" ∧
    (∀ p ∈ PARTICIPANTS,
      ((generate_filename p).data.all fun c => decide (c.toNat < 128) && !c.isWhitespace) = true) ∧
    ∀ choice : Nat → Nat, (∀ i, choice i < 36) →
      ∀ name, make_filename name (generate_random_string choice 8) =
          generate_filename name ++ "-" ++ generate_random_string choice 8 ++ ".html" ∧
        (generate_random_string choice 8).length = 8 ∧
        ((generate_random_string choice 8).data.all fun c => c.isLower || c.isDigit) = true := by
  refine ⟨by decide, by decide, by decide, ?_⟩
  intro choice hc name
  have hlen : (generate_random_string choice 8).length = 8 := by
    show ((List.range 8).map fun i => characters.data.getD (choice i) 'a').length = 8
    rw [List.length_map, List.length_range]
  refine ⟨rfl, hlen, ?_⟩
  rw [List.all_eq_true]
  intro c hcmem
  obtain ⟨i, _, rfl⟩ := List.mem_map.mp hcmem
  exact characters_getD (choice i) (hc i)

/-- Witness for the amended statement of C6 at concrete inputs. -/
theorem generate_filename_spec_witness :
    ((generate_filename "Annie").data.all fun c => decide (c.toNat < 128) && !c.isWhitespace) = true ∧
    (generate_random_string (fun _ => 0) 8).length = 8 :=
  ⟨generate_filename_spec.2.2.1 "Annie" (by decide),
   (generate_filename_spec.2.2.2 (fun _ => 0) (fun _ => show (0 : Nat) < 36 by decide) "x").2.1⟩

/-- C10: the rendered individual page does not depend on the `random_string`
argument at all; the token only influences the filename built in `main`. -/
theorem create_individual_page_token_independent :
    (∀ giver receiver t1 t2 : String,
      create_individual_page giver receiver t1 = create_individual_page giver receiver t2) ∧
    make_filename "Annie" "aaaaaaaa" ≠ make_filename "Annie" "bbbbbbbb" :=
  ⟨fun _ _ _ _ => rfl, by decide⟩

/-! Part: Occurrence facts about `listPrefix` / `listSub` -/

theorem listPrefix_iff : ∀ (p l : List Char), listPrefix p l = true ↔ ∃ t, l = p ++ t := by
  intro p
  induction p with
  | nil => intro l; simp [listPrefix]
  | cons a as ih =>
    intro l
    cases l with
    | nil => simp [listPrefix]
    | cons b bs =>
      simp only [listPrefix, Bool.and_eq_true, beq_iff_eq]
      constructor
      · rintro ⟨rfl, h⟩
        obtain ⟨t, rfl⟩ := (ih bs).mp h
        exact ⟨t, rfl⟩
      · rintro ⟨t, ht⟩
        obtain ⟨h1, h2⟩ := List.cons.inj ht
        exact ⟨h1.symm, (ih bs).mpr ⟨t, h2⟩⟩

theorem listSub_iff : ∀ (p l : List Char), listSub p l = true ↔ ∃ s t, l = s ++ p ++ t := by
  intro p l
  induction l with
  | nil =>
    show listPrefix p [] = true ↔ _
    rw [listPrefix_iff]
    constructor
    · rintro ⟨t, ht⟩
      exact ⟨[], t, by simpa using ht⟩
    · rintro ⟨s, t, hst⟩
      have hs := List.append_eq_nil.mp (List.append_eq_nil.mp hst.symm).1
      exact ⟨[], by simp [hs.2]⟩
  | cons c cs ih =>
    show (listPrefix p (c :: cs) || listSub p cs) = true ↔ _
    rw [Bool.or_eq_true, listPrefix_iff, ih]
    constructor
    · rintro (⟨t, ht⟩ | ⟨s, t, hst⟩)
      · exact ⟨[], t, by simpa using ht⟩
      · exact ⟨c :: s, t, by simp [hst]⟩
    · rintro ⟨s, t, hst⟩
      cases s with
      | nil => exact Or.inl ⟨t, by simpa using hst⟩
      | cons d ds =>
        obtain ⟨_, h2⟩ := List.cons.inj hst
        exact Or.inr ⟨ds, t, h2⟩

theorem listSub_refl (p : List Char) : listSub p p = true :=
  (listSub_iff p p).mpr ⟨[], [], by simp⟩

theorem listSub_append_left (p X Y : List Char) (h : listSub p X = true) :
    listSub p (X ++ Y) = true := by
  obtain ⟨s, t, hst⟩ := (listSub_iff p X).mp h
  exact (listSub_iff p (X ++ Y)).mpr ⟨s, t ++ Y, by simp [hst]⟩

theorem listSub_append_right (p X Y : List Char) (h : listSub p Y = true) :
    listSub p (X ++ Y) = true := by
  obtain ⟨s, t, hst⟩ := (listSub_iff p Y).mp h
  exact (listSub_iff p (X ++ Y)).mpr ⟨X ++ s, t, by simp [hst]⟩

theorem listSub_cons_of (p Y : List Char) (c : Char) (h : listSub p Y = true) :
    listSub p (c :: Y) = true := by
  show (listPrefix p (c :: Y) || listSub p Y) = true
  rw [Bool.or_eq_true]
  exact Or.inr h

theorem listSub_append_split (p X Y : List Char) (h : listSub p (X ++ Y) = true) :
    listSub p X = true ∨ listSub p Y = true ∨
      ∃ p1 p2 s, p = p1 ++ p2 ∧ p1 ≠ [] ∧ p2 ≠ [] ∧ X = s ++ p1 ∧ listPrefix p2 Y = true := by
  obtain ⟨s, t, hst⟩ := (listSub_iff p (X ++ Y)).mp h
  rw [List.append_assoc] at hst
  rcases List.append_eq_append_iff.mp hst with ⟨w, hs, hY⟩ | ⟨w, hX, hd⟩
  · exact Or.inr (Or.inl ((listSub_iff p Y).mpr ⟨w, t, by rw [hY, List.append_assoc]⟩))
  · rcases List.append_eq_append_iff.mp hd with ⟨u, hw, ht⟩ | ⟨u, hp, hYu⟩
    · exact Or.inl ((listSub_iff p X).mpr ⟨s, u, by rw [hX, hw, List.append_assoc]⟩)
    · cases w with
      | nil =>
        refine Or.inr (Or.inl ((listSub_iff p Y).mpr ⟨[], t, ?_⟩))
        simp only [List.nil_append] at hp
        rw [hYu, ← hp]
        simp
      | cons w0 ws =>
        cases u with
        | nil =>
          refine Or.inl ((listSub_iff p X).mpr ⟨s, [], ?_⟩)
          simp only [List.append_nil] at hp
          rw [hX, ← hp]
          simp
        | cons u0 us =>
          exact Or.inr (Or.inr ⟨w0 :: ws, u0 :: us, s, hp, by simp, by simp, hX,
            (listPrefix_iff _ _).mpr ⟨t, hYu⟩⟩)

theorem listSub_append_lastc (p X Y : List Char) (c : Char) (hc : c ∉ p)
    (hX : X.getLast? = some c) (h : listSub p (X ++ Y) = true) :
    listSub p X = true ∨ listSub p Y = true := by
  rcases listSub_append_split p X Y h with h1 | h1 | ⟨p1, p2, s, hp, hp1, _, hX2, _⟩
  · exact Or.inl h1
  · exact Or.inr h1
  · exfalso
    rw [hX2, List.getLast?_append_of_ne_nil s hp1] at hX
    obtain ⟨hne, hgl⟩ := List.mem_getLast?_eq_getLast (Option.mem_def.mpr hX)
    have hcp1 : p1.getLast hne ∈ p1 := List.getLast_mem hne
    rw [← hgl] at hcp1
    exact hc (by rw [hp]; exact List.mem_append_left p2 hcp1)

theorem listSub_append_headc (p X Y : List Char) (c : Char) (hc : c ∉ p)
    (hY : Y.head? = some c) (h : listSub p (X ++ Y) = true) :
    listSub p X = true ∨ listSub p Y = true := by
  rcases listSub_append_split p X Y h with h1 | h1 | ⟨p1, p2, s, hp, _, hp2, _, hpre⟩
  · exact Or.inl h1
  · exact Or.inr h1
  · exfalso
    cases p2 with
    | nil => exact hp2 rfl
    | cons d ds =>
      obtain ⟨t, ht⟩ := (listPrefix_iff _ _).mp hpre
      rw [ht] at hY
      have hd : d = c := by simpa using hY
      subst hd
      exact hc (by rw [hp]; exact List.mem_append_right p1 (List.mem_cons_self d ds))

theorem listSub_cons_elim (p Y : List Char) (c : Char)
    (hc : c ∉ p) (hp : p ≠ []) (h : listSub p (c :: Y) = true) : listSub p Y = true := by
  have h2 : (listPrefix p (c :: Y) || listSub p Y) = true := h
  rw [Bool.or_eq_true] at h2
  rcases h2 with h1 | h1
  · exfalso
    cases p with
    | nil => exact hp rfl
    | cons a as =>
      obtain ⟨t, ht⟩ := (listPrefix_iff _ _).mp h1
      have ha : a = c := (List.cons.inj ht).1.symm
      exact hc (ha ▸ List.mem_cons_self a as)
  · exact h1

/-! Part: Occurrence in a joined line list -/

theorem data_append (a b : String) : (a ++ b).data = a.data ++ b.data := rfl

theorem listSub_joinLines (p : List Char) (hp : p ≠ []) (hnl : ('\n' : Char) ∉ p) :
    ∀ ls : List String, listSub p (joinLines ls).data = true → ∃ l ∈ ls, listSub p l.data = true := by
  intro ls
  induction ls with
  | nil =>
    intro h
    exfalso
    have h2 : listPrefix p [] = true := h
    obtain ⟨t, ht⟩ := (listPrefix_iff _ _).mp h2
    rcases p with _ | ⟨a, as⟩
    · exact hp rfl
    · exact List.noConfusion ht
  | cons l ls ih =>
    cases ls with
    | nil => exact fun h => ⟨l, by simp, h⟩
    | cons l2 ls2 =>
      intro h
      have hdata : (joinLines (l :: l2 :: ls2)).data
          = l.data ++ '\n' :: (joinLines (l2 :: ls2)).data := by
        show (l ++ "\n" ++ joinLines (l2 :: ls2)).data = _
        rw [data_append, data_append, List.append_assoc]
        rfl
      rw [hdata] at h
      rcases listSub_append_headc p l.data ('\n' :: (joinLines (l2 :: ls2)).data) '\n'
          hnl rfl h with h1 | h1
      · exact ⟨l, by simp, h1⟩
      · obtain ⟨l3, hmem, hsub⟩ := ih (listSub_cons_elim p _ '\n' hnl hp h1)
        exact ⟨l3, List.mem_cons_of_mem l hmem, hsub⟩

theorem listSub_joinLines_of_mem (p : List Char) :
    ∀ (ls : List String) (l : String), l ∈ ls → listSub p l.data = true →
      listSub p (joinLines ls).data = true := by
  intro ls
  induction ls with
  | nil => intro l h; simp at h
  | cons a t ih =>
    intro l hmem hsub
    cases t with
    | nil =>
      have hla : l = a := by simpa using hmem
      rw [← hla]
      exact hsub
    | cons b t2 =>
      have hdata : (joinLines (a :: b :: t2)).data
          = a.data ++ '\n' :: (joinLines (b :: t2)).data := by
        show (a ++ "\n" ++ joinLines (b :: t2)).data = _
        rw [data_append, data_append, List.append_assoc]
        rfl
      rw [hdata]
      rcases List.mem_cons.mp hmem with rfl | hmem2
      · exact listSub_append_left _ _ _ hsub
      · exact listSub_append_right _ _ _
          (listSub_cons_of p _ '\n' (ih l hmem2 hsub))

/-! Part: Decided facts about the participants and the template text -/

theorem participants_chars :
    ∀ p ∈ PARTICIPANTS, '<' ∉ p.data ∧ '>' ∉ p.data ∧ ('\n' : Char) ∉ p.data ∧ p.data ≠ [] := by
  decide

theorem participants_pairwise :
    ∀ p ∈ PARTICIPANTS, ∀ q ∈ PARTICIPANTS, p ≠ q → listSub p.data q.data = false := by
  decide

theorem linesA_clean : ∀ p ∈ PARTICIPANTS, ∀ s ∈ linesA, listSub p.data s.data = false := by
  decide

theorem linesB_clean : ∀ p ∈ PARTICIPANTS, ∀ s ∈ linesB, listSub p.data s.data = false := by
  decide

theorem linesC_clean : ∀ p ∈ PARTICIPANTS, ∀ s ∈ linesC, listSub p.data s.data = false := by
  decide

theorem giver_pre_clean :
    ∀ p ∈ PARTICIPANTS,
      listSub p.data "        <p class=\"greeting\">Bonjour <strong>".data = false := by
  decide

theorem giver_post_clean :
    ∀ p ∈ PARTICIPANTS, listSub p.data "</strong> !</p>".data = false := by
  decide

theorem recv_pre_clean :
    ∀ p ∈ PARTICIPANTS,
      listSub p.data "                <div class=\"receiver-name\">".data = false := by
  decide

theorem recv_post_clean :
    ∀ p ∈ PARTICIPANTS, listSub p.data "</div>".data = false := by
  decide

/-! Part: No foreign name occurs in the interpolated lines -/

theorem giverLine_clean (p g : String) (hp : p ∈ PARTICIPANTS) (hg : g ∈ PARTICIPANTS)
    (hpg : p ≠ g) : listSub p.data (giverLine g).data = false := by
  obtain ⟨hlt, hgt, _, _⟩ := participants_chars p hp
  by_contra hcon
  rw [Bool.not_eq_false] at hcon
  have hdata : (giverLine g).data =
      ("        <p class=\"greeting\">Bonjour <strong>".data ++ g.data)
        ++ "</strong> !</p>".data := by
    show (("        <p class=\"greeting\">Bonjour <strong>" ++ g) ++ "</strong> !</p>").data = _
    rw [data_append, data_append]
  rw [hdata] at hcon
  rcases listSub_append_headc p.data
      ("        <p class=\"greeting\">Bonjour <strong>".data ++ g.data)
      "</strong> !</p>".data '<' hlt (by decide) hcon with h1 | h1
  · rcases listSub_append_lastc p.data
        "        <p class=\"greeting\">Bonjour <strong>".data g.data
        '>' hgt (by decide) h1 with h2 | h2
    · exact absurd h2 (by simp [giver_pre_clean p hp])
    · exact absurd h2 (by simp [participants_pairwise p hp g hg hpg])
  · exact absurd h1 (by simp [giver_post_clean p hp])

theorem receiverLine_clean (p r : String) (hp : p ∈ PARTICIPANTS) (hr : r ∈ PARTICIPANTS)
    (hpr : p ≠ r) : listSub p.data (receiverLine r).data = false := by
  obtain ⟨hlt, hgt, _, _⟩ := participants_chars p hp
  by_contra hcon
  rw [Bool.not_eq_false] at hcon
  have hdata : (receiverLine r).data =
      ("                <div class=\"receiver-name\">".data ++ r.data)
        ++ "</div>".data := by
    show (("                <div class=\"receiver-name\">" ++ r) ++ "</div>").data = _
    rw [data_append, data_append]
  rw [hdata] at hcon
  rcases listSub_append_headc p.data
      ("                <div class=\"receiver-name\">".data ++ r.data)
      "</div>".data '<' hlt (by decide) hcon with h1 | h1
  · rcases listSub_append_lastc p.data
        "                <div class=\"receiver-name\">".data r.data
        '>' hgt (by decide) h1 with h2 | h2
    · exact absurd h2 (by simp [recv_pre_clean p hp])
    · exact absurd h2 (by simp [participants_pairwise p hp r hr hpr])
  · exact absurd h1 (by simp [recv_post_clean p hp])

/-- C5: for givers and receivers drawn from the fixed participant list, the
rendered individual page contains the giver name and the receiver name, and
contains zero occurrences of the name of any other participant. -/
theorem create_individual_page_privacy (g r p t : String)
    (hg : g ∈ PARTICIPANTS) (hr : r ∈ PARTICIPANTS) (_hgr : g ≠ r)
    (hp : p ∈ PARTICIPANTS) (hpg : p ≠ g) (hpr : p ≠ r) :
    occursIn g (create_individual_page g r t) = true ∧
    occursIn r (create_individual_page g r t) = true ∧
    occursIn p (create_individual_page g r t) = false := by
  refine ⟨?_, ?_, ?_⟩
  · show listSub g.data (joinLines (indivLines g r)).data = true
    refine listSub_joinLines_of_mem g.data (indivLines g r) (giverLine g)
      (List.mem_append_right linesA (List.mem_cons_self (giverLine g)
        (linesB ++ receiverLine r :: linesC))) ?_
    have hdata : (giverLine g).data =
        "        <p class=\"greeting\">Bonjour <strong>".data
          ++ (g.data ++ "</strong> !</p>".data) := by
      show (("        <p class=\"greeting\">Bonjour <strong>" ++ g) ++ "</strong> !</p>").data = _
      rw [data_append, data_append, List.append_assoc]
    rw [hdata]
    exact listSub_append_right _ _ _ (listSub_append_left _ _ _ (listSub_refl g.data))
  · show listSub r.data (joinLines (indivLines g r)).data = true
    refine listSub_joinLines_of_mem r.data (indivLines g r) (receiverLine r)
      (List.mem_append_right linesA (List.mem_cons_of_mem (giverLine g)
        (List.mem_append_right linesB
          (List.mem_cons_self (receiverLine r) linesC)))) ?_
    have hdata : (receiverLine r).data =
        "                <div class=\"receiver-name\">".data
          ++ (r.data ++ "</div>".data) := by
      show (("                <div class=\"receiver-name\">" ++ r) ++ "</div>").data = _
      rw [data_append, data_append, List.append_assoc]
    rw [hdata]
    exact listSub_append_right _ _ _ (listSub_append_left _ _ _ (listSub_refl r.data))
  · obtain ⟨_, _, hnl, hne⟩ := participants_chars p hp
    by_contra hcon
    rw [Bool.not_eq_false] at hcon
    obtain ⟨l, hmem, hsub⟩ := listSub_joinLines p.data hne hnl (indivLines g r) hcon
    have hmem0 : l ∈ linesA ++ giverLine g :: (linesB ++ receiverLine r :: linesC) := hmem
    rcases List.mem_append.mp hmem0 with hA | h1
    · exact absurd hsub (by simp [linesA_clean p hp l hA])
    rcases List.mem_cons.mp h1 with rfl | h2
    · exact absurd hsub (by simp [giverLine_clean p g hp hg hpg])
    rcases List.mem_append.mp h2 with hB | h3
    · exact absurd hsub (by simp [linesB_clean p hp l hB])
    rcases List.mem_cons.mp h3 with rfl | hC
    · exact absurd hsub (by simp [receiverLine_clean p r hp hr hpr])
    · exact absurd hsub (by simp [linesC_clean p hp l hC])

/-- Witness for C5: the page for giver Annie and receiver Jacques names both of
them and never mentions Vincent. -/
theorem create_individual_page_privacy_witness :
    occursIn "Annie" (create_individual_page "Annie" "Jacques" "x") = true ∧
    occursIn "Jacques" (create_individual_page "Annie" "Jacques" "x") = true ∧
    occursIn "Vincent" (create_individual_page "Annie" "Jacques" "x") = false :=
  create_individual_page_privacy "Annie" "Jacques" "Vincent" "x"
    (by decide) (by decide) (by decide) (by decide) (by decide) (by decide)
